import Mathlib

/-!
Measurement ingestion and classification (src/main.c)

A shallow embedding of the GATT write handler `on_receive`, the classifier
`check_defective` and the connection callbacks `connected` / `disconnected`
of `src/main.c`, followed by theorems about them.

Conventions of the embedding
* machine integers are `Nat` / `Int`; every place where C truncates
  (`uint8_t`, `uint16_t`, `uint32_t`) carries an explicit `% 2^w`;
* a pointer is an `Option`: `none` is `NULL`;
* the memory behind `const void *buf` is a function `Nat → Nat`: `m i` is the
  byte stored at address `buf + i`;
* the file-scope variables `current_conn`, `expected_packet_count`,
  `custom_value`, `custom_value_len` are the fields of `State`, passed
  explicitly;
* the line printed by `printf` is the `Record` stored in `Outcome.emitted`.
-/

namespace Ingest

/-! ## Constants of the Bluetooth stack used by the handler -/

/-- ATT error code "invalid handle" (Bluetooth Core, ATT error 0x01). -/
def BT_ATT_ERR_INVALID_HANDLE : Int := 0x01

/-- ATT error code "invalid offset" (Bluetooth Core, ATT error 0x07). -/
def BT_ATT_ERR_INVALID_OFFSET : Int := 0x07

/-- The stack's `BT_GATT_ERR(x)`, which is `-(x)`. -/
def BT_GATT_ERR (x : Int) : Int := -x

/-- Value of `sizeof(custom_value)` for `uint8_t custom_value[512]`. -/
def sizeof_custom_value : Nat := 512

/-! ## Integer conversions -/

/-- Conversion of an `int` value to `uint8_t`. -/
def to_u8 (x : Int) : Nat := (x % 256).toNat

/-- Conversion of an `int` value to `uint16_t`. -/
def to_u16 (x : Int) : Nat := (x % 65536).toNat

/-- What `%u` prints for a 32-bit `int` argument: the value modulo `2^32`. -/
def print_u (x : Int) : Nat := (x % 4294967296).toNat

/-! ## Data model -/

/-- The file-scope variables of `main.c` (lines 15-19). -/
structure State where
  /-- Field `current_conn`: the `struct bt_conn *`, `none` for `NULL`. -/
  current_conn : Option Nat
  /-- Field `expected_packet_count`: a `uint32_t`. -/
  expected_packet_count : Nat
  /-- Field `custom_value`: the `uint8_t [512]` array. -/
  custom_value : List Nat
  /-- Field `custom_value_len`: a `uint16_t`. -/
  custom_value_len : Nat
deriving DecidableEq, Repr

/-- The values the file-scope variables are initialised with. -/
def State.init : State where
  current_conn := none
  expected_packet_count := 0
  custom_value := List.replicate 512 0
  custom_value_len := 0

/-- The five values printed by the `printf` of lines 78-79, in order. -/
structure Record where
  length : Nat
  width : Nat
  mass : Nat
  color : Nat
  defective : Nat
deriving DecidableEq, Repr

/-- What one call of `on_receive` does: the value returned, the file-scope
variables afterwards, whether the branch of line 62 (sequence mismatch) was
taken, and the line printed, if any. -/
structure Outcome where
  ret : Int
  state : State
  mismatch : Bool
  emitted : Option Record
deriving DecidableEq, Repr

/-- The arguments of one call of `on_receive`. -/
structure Write where
  conn : Option Nat
  attr : Option Nat
  buf : Option (Nat → Nat)
  len : Nat
  offset : Nat
  flags : Nat

/-! ## The program -/

/-- Function `check_defective` of lines 21-35. -/
def check_defective (length_raw width_raw : Nat) : Nat :=
  let actual_length := to_u8 (51 - (length_raw : Int))
  let actual_width := to_u8 (51 - (width_raw : Int))
  let is_product1_length := decide (actual_length ≥ 12) && decide (actual_length ≤ 16)
  let is_product1_width := decide (actual_width ≤ 23) && decide (actual_width ≥ 19)
  if is_product1_length && is_product1_width then 0 else 1

/-- The library `memcpy(dst + off, src, n)` on the array `dst`: bytes
`0 .. n-1` of `src` are stored at `dst[off] .. dst[off + n - 1]`. -/
def memcpy (dst : List Nat) (off : Nat) (src : Nat → Nat) : Nat → List Nat
  | 0 => dst
  | n + 1 => (memcpy dst off src n).set (off + n) (src n)

/-- Read of `((uint8_t *)buf)[i]`. -/
def read_u8 (m : Nat → Nat) (i : Nat) : Nat := m i % 256

/-- Function `on_receive` of lines 37-83. -/
def on_receive (s : State) (conn attr : Option Nat) (buf : Option (Nat → Nat))
    (len offset : Nat) (_flags : Nat) : Outcome :=
  match conn, attr, buf with
  | some c, some _, some m =>
    if offset + len > sizeof_custom_value then
      ⟨BT_GATT_ERR BT_ATT_ERR_INVALID_OFFSET, s, false, none⟩
    else if some c ≠ s.current_conn then
      ⟨BT_GATT_ERR BT_ATT_ERR_INVALID_HANDLE, s, false, none⟩
    else
      let custom_value := memcpy s.custom_value offset m len
      let custom_value_len := to_u16 ((offset : Int) + (len : Int))
      let mismatch :=
        if len ≥ 5 then
          let packet_count := read_u8 m 4
          decide (packet_count ≠ s.expected_packet_count % 256)
        else false
      let expected_packet_count :=
        if len ≥ 5 then (s.expected_packet_count + 1) % 4294967296
        else s.expected_packet_count
      let length := read_u8 m 0
      let width := read_u8 m 1
      let mass := read_u8 m 2
      let color := to_u8 0xFFFF
      let defective := check_defective length width
      ⟨(len : Int),
       ⟨s.current_conn, expected_packet_count, custom_value, custom_value_len⟩,
       mismatch,
       some ⟨print_u (51 - (length : Int)), print_u (51 - (width : Int)), mass, color,
             defective⟩⟩
  | _, _, _ => ⟨BT_GATT_ERR BT_ATT_ERR_INVALID_HANDLE, s, false, none⟩

/-- The call of `on_receive` on a packed argument list. -/
def Write.run (s : State) (w : Write) : Outcome :=
  on_receive s w.conn w.attr w.buf w.len w.offset w.flags

/-- The stack's `bt_conn_ref(conn)`: takes a reference and returns `conn`. -/
def bt_conn_ref (conn : Option Nat) : Option Nat := conn

/-- Function `connected` of lines 93-124 (the effect on the file-scope
variables; the parameter update of lines 113-123 touches none of them). -/
def connected (s : State) (conn : Option Nat) (err : Nat) : State :=
  if err ≠ 0 then s
  else { s with current_conn := bt_conn_ref conn, expected_packet_count := 0 }

/-- Function `disconnected` of lines 126-140. -/
def disconnected (s : State) (_conn : Option Nat) (_reason : Nat) : State :=
  let current_conn := if s.current_conn.isSome then none else s.current_conn
  { s with current_conn := current_conn, custom_value_len := 0,
           expected_packet_count := 0 }

/-- The outcomes of a stream of writes delivered one after the other. -/
def run_writes (s : State) : List Write → List Outcome
  | [] => []
  | w :: ws => w.run s :: run_writes (w.run s).state ws

/-- The file-scope variables after a stream of writes. -/
def final_state (s : State) : List Write → State
  | [] => s
  | w :: ws => final_state (w.run s).state ws

/-- The `len` bytes stored at the pointer `buf`: the data of a write. -/
def bytes (m : Nat → Nat) (len : Nat) : List Nat := (List.range len).map m

/-- A sample write: the five-byte record 37, 32, 50, 0, `k` (length, width, mass, one
unused byte, sequence byte `k`) sent by peer `c` at offset 0. -/
def seq_write (c k : Nat) : Write :=
  ⟨some c, some 0, some (fun i => [37, 32, 50, 0, k].getD i 0), 5, 0, 0⟩

/-- A write is accepted when the handler returns the byte count, not an error. -/
def Outcome.accepted (o : Outcome) : Prop := 0 ≤ o.ret

instance (o : Outcome) : Decidable o.accepted := by
  unfold Outcome.accepted; infer_instance

/-- The three callbacks the Bluetooth stack invokes on this file: `connected`,
`disconnected` (registered at lines 142-145) and `on_receive` (registered at lines
85-91). -/
inductive Event where
  | connect (conn : Option Nat) (err : Nat)
  | disconnect (conn : Option Nat) (reason : Nat)
  | write (w : Write)

/-- The file-scope variables after one callback. -/
def Event.apply (s : State) : Event → State
  | .connect conn err => connected s conn err
  | .disconnect conn reason => disconnected s conn reason
  | .write w => (w.run s).state

/-- The file-scope variables after a sequence of callbacks. -/
def run_events (s : State) : List Event → State
  | [] => s
  | e :: es => run_events (e.apply s) es

/-- The bounds the declarations of lines 18-19 are meant to keep: the array has its 512
cells and `custom_value_len` does not exceed them. -/
def State.in_bounds (s : State) : Prop :=
  s.custom_value.length = 512 ∧ s.custom_value_len ≤ 512

/-! ## Basic facts about the handler -/

/-- The handler's result when all three pointers are non-null. -/
theorem on_receive_some (s : State) (c a : Nat) (m : Nat → Nat) (len offset flags : Nat) :
    on_receive s (some c) (some a) (some m) len offset flags =
      if offset + len > sizeof_custom_value then
        ⟨BT_GATT_ERR BT_ATT_ERR_INVALID_OFFSET, s, false, none⟩
      else if some c ≠ s.current_conn then
        ⟨BT_GATT_ERR BT_ATT_ERR_INVALID_HANDLE, s, false, none⟩
      else
        ⟨(len : Int),
         ⟨s.current_conn,
          if len ≥ 5 then (s.expected_packet_count + 1) % 4294967296
          else s.expected_packet_count,
          memcpy s.custom_value offset m len,
          to_u16 ((offset : Int) + (len : Int))⟩,
         if len ≥ 5 then decide (read_u8 m 4 ≠ s.expected_packet_count % 256) else false,
         some ⟨print_u (51 - (read_u8 m 0 : Int)), print_u (51 - (read_u8 m 1 : Int)),
               read_u8 m 2, to_u8 0xFFFF,
               check_defective (read_u8 m 0) (read_u8 m 1)⟩⟩ := by
  simp only [on_receive]

/-- The handler's result when one of the three pointers is `NULL`. -/
theorem on_receive_null (s : State) (conn attr : Option Nat) (buf : Option (Nat → Nat))
    (len offset flags : Nat) (h : conn = none ∨ attr = none ∨ buf = none) :
    on_receive s conn attr buf len offset flags =
      ⟨BT_GATT_ERR BT_ATT_ERR_INVALID_HANDLE, s, false, none⟩ := by
  cases conn <;> cases attr <;> cases buf <;> simp_all [on_receive]

/-- The handler's result for a write that passes the three checks. -/
theorem on_receive_ok (s : State) (c a : Nat) (m : Nat → Nat) (len offset flags : Nat)
    (hb : offset + len ≤ 512) (hp : s.current_conn = some c) :
    on_receive s (some c) (some a) (some m) len offset flags =
        ⟨(len : Int),
         ⟨s.current_conn,
          if len ≥ 5 then (s.expected_packet_count + 1) % 4294967296
          else s.expected_packet_count,
          memcpy s.custom_value offset m len,
          offset + len⟩,
         if len ≥ 5 then decide (read_u8 m 4 ≠ s.expected_packet_count % 256) else false,
         some ⟨print_u (51 - (read_u8 m 0 : Int)), print_u (51 - (read_u8 m 1 : Int)),
               read_u8 m 2, to_u8 0xFFFF,
               check_defective (read_u8 m 0) (read_u8 m 1)⟩⟩ := by
  have h16 : to_u16 ((offset : Int) + (len : Int)) = offset + len := by
    unfold to_u16; omega
  rw [on_receive_some, if_neg (by simp only [sizeof_custom_value]; omega),
    if_neg (by simp [hp]), h16]

/-- A write is accepted exactly when it passes the three checks of lines 44-55. -/
theorem accepted_iff (s : State) (conn attr : Option Nat) (buf : Option (Nat → Nat))
    (len offset flags : Nat) :
    (on_receive s conn attr buf len offset flags).accepted ↔
      (conn ≠ none ∧ attr ≠ none ∧ buf ≠ none) ∧ offset + len ≤ 512 ∧
        conn = s.current_conn := by
  cases conn with
  | none => simp [on_receive, Outcome.accepted, BT_GATT_ERR, BT_ATT_ERR_INVALID_HANDLE]
  | some c =>
    cases attr with
    | none => simp [on_receive, Outcome.accepted, BT_GATT_ERR, BT_ATT_ERR_INVALID_HANDLE]
    | some a =>
      cases buf with
      | none => simp [on_receive, Outcome.accepted, BT_GATT_ERR, BT_ATT_ERR_INVALID_HANDLE]
      | some m =>
        rw [on_receive_some]
        by_cases hb : offset + len > sizeof_custom_value
        · rw [if_pos hb]
          simp only [sizeof_custom_value] at hb
          simp [Outcome.accepted, BT_GATT_ERR, BT_ATT_ERR_INVALID_OFFSET]
          omega
        · rw [if_neg hb]
          simp only [sizeof_custom_value] at hb
          by_cases hp : some c = s.current_conn
          · rw [if_neg (by simp [hp])]
            simp only [Outcome.accepted]
            refine ⟨fun _ => ⟨by simp, by omega, hp⟩, fun _ => by omega⟩
          · rw [if_pos hp]
            simp [Outcome.accepted, BT_GATT_ERR, BT_ATT_ERR_INVALID_HANDLE, hp]

/-- A write that is not accepted changes nothing and prints nothing. -/
theorem rejected_unchanged (s : State) (conn attr : Option Nat) (buf : Option (Nat → Nat))
    (len offset flags : Nat)
    (h : ¬ (on_receive s conn attr buf len offset flags).accepted) :
    (on_receive s conn attr buf len offset flags).state = s ∧
      (on_receive s conn attr buf len offset flags).emitted = none ∧
      (on_receive s conn attr buf len offset flags).mismatch = false := by
  cases conn with
  | none => simp [on_receive]
  | some c =>
    cases attr with
    | none => simp [on_receive]
    | some a =>
      cases buf with
      | none => simp [on_receive]
      | some m =>
        rw [on_receive_some] at h ⊢
        by_cases hb : offset + len > sizeof_custom_value
        · simp [if_pos hb]
        · by_cases hp : some c = s.current_conn
          · rw [if_neg hb, if_neg (by simp [hp])] at h
            exact absurd (by simp only [Outcome.accepted]; omega) h
          · simp [if_neg hb, if_pos hp]

/-- An accepted write comes from the active peer, with non-null pointers, in bounds. -/
theorem accepted_args (s : State) (conn attr : Option Nat) (m : Nat → Nat)
    (len offset flags : Nat)
    (h : (on_receive s conn attr (some m) len offset flags).accepted) :
    ∃ c a, conn = some c ∧ attr = some a ∧ s.current_conn = some c ∧
      offset + len ≤ 512 := by
  rcases (accepted_iff s conn attr (some m) len offset flags).1 h with ⟨⟨hc, ha, _⟩, hle, he⟩
  obtain ⟨c, rfl⟩ := Option.ne_none_iff_exists'.1 hc
  obtain ⟨a, rfl⟩ := Option.ne_none_iff_exists'.1 ha
  exact ⟨c, a, rfl, rfl, he.symm, hle⟩

/-- The outcome of an accepted write, for the packed argument list. -/
theorem run_accepted (s : State) (w : Write) (h : (w.run s).accepted) :
    ∃ c a m, w.conn = some c ∧ w.attr = some a ∧ w.buf = some m ∧
      s.current_conn = some c ∧ w.offset + w.len ≤ 512 ∧
      w.run s =
        ⟨(w.len : Int),
         ⟨s.current_conn,
          if w.len ≥ 5 then (s.expected_packet_count + 1) % 4294967296
          else s.expected_packet_count,
          memcpy s.custom_value w.offset m w.len,
          w.offset + w.len⟩,
         if w.len ≥ 5 then decide (read_u8 m 4 ≠ s.expected_packet_count % 256) else false,
         some ⟨print_u (51 - (read_u8 m 0 : Int)), print_u (51 - (read_u8 m 1 : Int)),
               read_u8 m 2, to_u8 0xFFFF,
               check_defective (read_u8 m 0) (read_u8 m 1)⟩⟩ := by
  unfold Write.run at h ⊢
  have hb := ((accepted_iff s w.conn w.attr w.buf w.len w.offset w.flags).1 h).1.2.2
  obtain ⟨m, hm⟩ := Option.ne_none_iff_exists'.1 hb
  rw [hm] at h ⊢
  obtain ⟨c, a, hc, ha, hp, hle⟩ := accepted_args s w.conn w.attr m w.len w.offset w.flags h
  rw [hc, ha]
  exact ⟨c, a, m, rfl, rfl, rfl, hp, hle, on_receive_ok s c a m w.len w.offset w.flags hle hp⟩

/-- One outcome per write of the stream. -/
theorem length_run_writes (s : State) (ws : List Write) :
    (run_writes s ws).length = ws.length := by
  induction ws generalizing s with
  | nil => rfl
  | cons w ws ih => simp only [run_writes, List.length_cons, ih]

/-- In-order streams from any counter value: when the counter agrees with `k` modulo 256
and the `i`-th write is accepted, has at least 5 bytes and carries the sequence byte
`(k + i) mod 256`, no write of the stream takes the mismatch branch. -/
theorem run_writes_in_order (s : State) (k : Nat) (ws : List Write)
    (hk : s.expected_packet_count % 256 = k % 256)
    (h : ∀ (i : Nat) (w : Write) (o : Outcome), ws[i]? = some w →
      (run_writes s ws)[i]? = some o →
      o.accepted ∧ 5 ≤ w.len ∧ ∃ m, w.buf = some m ∧ m 4 = (k + i) % 256) :
    ∀ (i : Nat) (o : Outcome), (run_writes s ws)[i]? = some o → o.mismatch = false := by
  induction ws generalizing s k with
  | nil => intro i o ho; simp [run_writes] at ho
  | cons w ws ih =>
    obtain ⟨hacc, hlen, m, hm, hm4⟩ := h 0 w (w.run s) (by simp) (by simp [run_writes])
    obtain ⟨c, a, m2, _, _, hm2, _, _, hrun⟩ := run_accepted s w hacc
    have hmm : m2 = m := by rw [hm] at hm2; exact (Option.some.inj hm2).symm
    subst hmm
    intro i o ho
    cases i with
    | zero =>
      simp only [run_writes, List.getElem?_cons_zero, Option.some.injEq] at ho
      subst ho
      rw [hrun]
      show (if w.len ≥ 5 then decide (read_u8 m2 4 ≠ s.expected_packet_count % 256)
        else false) = false
      rw [if_pos hlen]
      simp only [read_u8, hm4, ne_eq, decide_eq_false_iff_not, not_not]
      omega
    | succ j =>
      simp only [run_writes, List.getElem?_cons_succ] at ho
      refine ih (w.run s).state (k + 1) ?_ ?_ j o ho
      · rw [hrun]
        show (if w.len ≥ 5 then (s.expected_packet_count + 1) % 4294967296
          else s.expected_packet_count) % 256 = (k + 1) % 256
        rw [if_pos hlen]
        omega
      · intro i2 w2 o2 hw2 ho2
        have := h (i2 + 1) w2 o2 (by simpa using hw2) (by simpa [run_writes] using ho2)
        obtain ⟨h1, h2, m3, h3, h4⟩ := this
        exact ⟨h1, h2, m3, h3, by rw [h4]; congr 1; omega⟩

/-- The sequence step of an accepted write of at least 5 bytes: the mismatch branch is
taken exactly when the byte at index 4 differs from the low byte of the counter, and
the counter is incremented modulo `2^32`; the peer stays. -/
theorem run_seq_step (s : State) (w : Write) (m : Nat → Nat) (hacc : (w.run s).accepted)
    (hlen : 5 ≤ w.len) (hbuf : w.buf = some m) :
    (w.run s).mismatch = decide (read_u8 m 4 ≠ s.expected_packet_count % 256) ∧
    (w.run s).state.expected_packet_count = (s.expected_packet_count + 1) % 4294967296 := by
  obtain ⟨c, a, m2, _, _, hm2, _, _, hrun⟩ := run_accepted s w hacc
  have hmm : m2 = m := by rw [hbuf] at hm2; exact (Option.some.inj hm2).symm
  subst hmm
  rw [hrun]
  constructor
  · show (if w.len ≥ 5 then decide (read_u8 m2 4 ≠ s.expected_packet_count % 256)
      else false) = _
    rw [if_pos hlen]
  · show (if w.len ≥ 5 then (s.expected_packet_count + 1) % 4294967296
      else s.expected_packet_count) = _
    rw [if_pos hlen]

/-! ## Facts about `memcpy` -/

/-- Copying into an array keeps its size. -/
theorem length_memcpy (dst : List Nat) (off : Nat) (src : Nat → Nat) (n : Nat) :
    (memcpy dst off src n).length = dst.length := by
  induction n with
  | zero => rfl
  | succ k ih => simp only [memcpy, List.length_set, ih]

/-- The cell `j` of the array after `memcpy`: the source byte when `j` lies in the
copied range (and in the array), the old cell otherwise. -/
theorem getElem?_memcpy (dst : List Nat) (off : Nat) (src : Nat → Nat) (n j : Nat) :
    (memcpy dst off src n)[j]? =
      if off ≤ j ∧ j < off + n ∧ j < dst.length then some (src (j - off)) else dst[j]? := by
  induction n with
  | zero =>
    simp only [memcpy]
    rw [if_neg (by omega)]
  | succ k ih =>
    simp only [memcpy, List.getElem?_set, length_memcpy]
    by_cases hj : off + k = j
    · subst hj
      rw [if_pos rfl]
      by_cases hl : off + k < dst.length
      · rw [if_pos hl, if_pos ⟨by omega, by omega, hl⟩]
        simp
      · rw [if_neg hl, if_neg (by omega)]
        exact (List.getElem?_eq_none (by omega)).symm
    · rw [if_neg hj, ih]
      by_cases hc : off ≤ j ∧ j < off + k ∧ j < dst.length
      · rw [if_pos hc, if_pos ⟨hc.1, by omega, hc.2.2⟩]
      · rw [if_neg hc, if_neg (by omega)]

/-- After a copy to offset 0 that fits, the array starts with the copied bytes. -/
theorem take_memcpy_zero (dst : List Nat) (src : Nat → Nat) (n : Nat)
    (h : n ≤ dst.length) : (memcpy dst 0 src n).take n = bytes src n := by
  apply List.ext_getElem?
  intro j
  simp only [bytes, List.getElem?_take, List.getElem?_map]
  by_cases hj : j < n
  · rw [if_pos hj, getElem?_memcpy, if_pos ⟨by omega, by omega, by omega⟩,
      List.getElem?_range hj]
    simp
  · rw [if_neg hj, List.getElem?_eq_none (by simp; omega)]
    rfl

/-! ## Facts about the connection callbacks and event sequences -/

/-- The classifier returns 0 or 1. -/
theorem check_defective_range (length_raw width_raw : Nat) :
    check_defective length_raw width_raw = 0 ∨ check_defective length_raw width_raw = 1 := by
  unfold check_defective
  simp only []
  split
  · exact Or.inl rfl
  · exact Or.inr rfl

/-- The classifier only looks at its arguments modulo 256. -/
theorem check_defective_mod (length_raw width_raw : Nat) :
    check_defective (length_raw % 256) (width_raw % 256) =
      check_defective length_raw width_raw := by
  have h1 : to_u8 (51 - ((length_raw % 256 : Nat) : Int)) = to_u8 (51 - (length_raw : Int)) := by
    unfold to_u8; omega
  have h2 : to_u8 (51 - ((width_raw % 256 : Nat) : Int)) = to_u8 (51 - (width_raw : Int)) := by
    unfold to_u8; omega
  unfold check_defective
  rw [h1, h2]

/-- After `disconnected` there is no active peer. -/
theorem disconnected_conn (s : State) (conn : Option Nat) (reason : Nat) :
    (disconnected s conn reason).current_conn = none := by
  unfold disconnected
  cases h : s.current_conn <;> simp [h]

/-- The result of a write that does not come from the active peer: an error, chosen by
the order of the checks of lines 44-55, and no change. -/
theorem foreign_write (s : State) (conn attr : Option Nat) (buf : Option (Nat → Nat))
    (len offset flags : Nat) (hpeer : conn ≠ s.current_conn ∨ s.current_conn = none) :
    on_receive s conn attr buf len offset flags =
      ⟨if (conn.isSome && attr.isSome && buf.isSome) = true ∧ 512 < offset + len then
          BT_GATT_ERR BT_ATT_ERR_INVALID_OFFSET
        else BT_GATT_ERR BT_ATT_ERR_INVALID_HANDLE, s, false, none⟩ := by
  cases conn with
  | none => simp [on_receive]
  | some c =>
    cases attr with
    | none => simp [on_receive]
    | some a =>
      cases buf with
      | none => simp [on_receive]
      | some m =>
        have hne : some c ≠ s.current_conn := by
          rcases hpeer with hp | hp
          · exact hp
          · rw [hp]; simp
        rw [on_receive_some]
        by_cases hb : offset + len > sizeof_custom_value
        · rw [if_pos hb]
          simp only [sizeof_custom_value] at hb
          simp [hb]
        · rw [if_neg hb, if_pos hne]
          simp only [sizeof_custom_value] at hb
          rw [if_neg (by omega)]

/-- Both error values are negative: an error is never an accepted write. -/
theorem error_not_accepted (p : Prop) [Decidable p] (s : State) :
    ¬ (Outcome.mk (if p then BT_GATT_ERR BT_ATT_ERR_INVALID_OFFSET
        else BT_GATT_ERR BT_ATT_ERR_INVALID_HANDLE) s false none).accepted := by
  unfold Outcome.accepted
  split <;> simp [BT_GATT_ERR, BT_ATT_ERR_INVALID_OFFSET, BT_ATT_ERR_INVALID_HANDLE]

/-- Without an active peer a stream of writes leaves the variables as they are. -/
theorem final_state_no_session (s : State) (ws : List Write) (h : s.current_conn = none) :
    final_state s ws = s := by
  induction ws with
  | nil => rfl
  | cons w ws ih =>
    have hw : (w.run s).state = s := by
      unfold Write.run
      rw [foreign_write s _ _ _ _ _ _ (Or.inr h)]
    simp only [final_state, hw, ih]

/-- Without an active peer every write of a stream gets the error of `foreign_write`. -/
theorem run_writes_no_session (s : State) (ws : List Write) (h : s.current_conn = none) :
    ∀ (i : Nat) (w : Write) (o : Outcome), ws[i]? = some w →
      (run_writes s ws)[i]? = some o →
      o = ⟨if (w.conn.isSome && w.attr.isSome && w.buf.isSome) = true ∧
              512 < w.offset + w.len then BT_GATT_ERR BT_ATT_ERR_INVALID_OFFSET
            else BT_GATT_ERR BT_ATT_ERR_INVALID_HANDLE, s, false, none⟩ := by
  induction ws with
  | nil => intro i w o hw; simp at hw
  | cons w0 ws ih =>
    have h0 : w0.run s = _ := foreign_write s w0.conn w0.attr w0.buf w0.len w0.offset
      w0.flags (Or.inr h)
    intro i w o hw ho
    cases i with
    | zero =>
      simp only [List.getElem?_cons_zero, Option.some.injEq] at hw
      simp only [run_writes, List.getElem?_cons_zero, Option.some.injEq] at ho
      subst hw
      rw [← ho, h0]
    | succ j =>
      simp only [List.getElem?_cons_succ] at hw
      simp only [run_writes, List.getElem?_cons_succ] at ho
      have hst : (w0.run s).state = s := by rw [h0]
      rw [hst] at ho
      exact ih j w o hw ho

/-- Every callback keeps the bounds of the buffer. -/
theorem in_bounds_apply (s : State) (e : Event) (h : s.in_bounds) : (e.apply s).in_bounds := by
  obtain ⟨h1, h2⟩ := h
  cases e with
  | connect conn err =>
    simp only [Event.apply, connected]
    split
    · exact ⟨h1, h2⟩
    · exact ⟨h1, h2⟩
  | disconnect conn reason =>
    exact ⟨h1, Nat.zero_le _⟩
  | write w =>
    simp only [Event.apply]
    by_cases hacc : (w.run s).accepted
    · obtain ⟨c, a, m, _, _, _, _, hle, hrun⟩ := run_accepted s w hacc
      rw [hrun]
      exact ⟨by show (memcpy s.custom_value w.offset m w.len).length = 512
                rw [length_memcpy, h1], hle⟩
    · have hst : (w.run s).state = s :=
        (rejected_unchanged s w.conn w.attr w.buf w.len w.offset w.flags hacc).1
      rw [hst]
      exact ⟨h1, h2⟩

/-- A sequence of callbacks keeps the bounds of the buffer. -/
theorem in_bounds_run_events (s : State) (es : List Event) (h : s.in_bounds) :
    (run_events s es).in_bounds := by
  induction es generalizing s with
  | nil => exact h
  | cons e es ih => exact ih (e.apply s) (in_bounds_apply s e h)

/-! ## The classifier -/

/-- C1: for all raw bytes `length_raw`, `width_raw` (in particular all values in [0,255]),
`check_defective` returns 0 exactly when `12 ≤ (51 - length_raw) mod 256 ≤ 16` and
`19 ≤ (51 - width_raw) mod 256 ≤ 23`, and returns 1 otherwise; in particular
`check_defective 37 32 = 0` and `check_defective 45 w = 1` for every `w`. -/
theorem check_defective_spec (length_raw width_raw : Nat) :
    (check_defective length_raw width_raw = 0 ↔
      (12 ≤ (51 - (length_raw : Int)) % 256 ∧ (51 - (length_raw : Int)) % 256 ≤ 16) ∧
      (19 ≤ (51 - (width_raw : Int)) % 256 ∧ (51 - (width_raw : Int)) % 256 ≤ 23)) ∧
    (¬ ((12 ≤ (51 - (length_raw : Int)) % 256 ∧ (51 - (length_raw : Int)) % 256 ≤ 16) ∧
        (19 ≤ (51 - (width_raw : Int)) % 256 ∧ (51 - (width_raw : Int)) % 256 ≤ 23)) →
      check_defective length_raw width_raw = 1) ∧
    check_defective 37 32 = 0 ∧
    check_defective 45 width_raw = 1 := by
  refine ⟨?_, ?_, by decide, ?_⟩
  · unfold check_defective to_u8
    simp only [ge_iff_le, Bool.and_eq_true, decide_eq_true_eq]
    split <;> omega
  · unfold check_defective to_u8
    simp only [ge_iff_le, Bool.and_eq_true, decide_eq_true_eq]
    split <;> omega
  · unfold check_defective to_u8
    simp only [ge_iff_le, Bool.and_eq_true, decide_eq_true_eq]
    split <;> omega

/-! ## The write handler: checks -/

/-- C2: for a write from the active peer with non-null `conn`, `attr`, `buf`, and every
`offset` and `len` (in particular all 16-bit values): the write is accepted and returns
`len` if and only if `offset + len ≤ 512`, the sum taken without wrap; otherwise it is
rejected with the invalid-offset error. -/
theorem on_receive_offset_check (s : State) (c a : Nat) (m : Nat → Nat)
    (len offset flags : Nat) (hpeer : s.current_conn = some c) :
    (((on_receive s (some c) (some a) (some m) len offset flags).accepted ∧
        (on_receive s (some c) (some a) (some m) len offset flags).ret = (len : Int)) ↔
      offset + len ≤ 512) ∧
    (¬ offset + len ≤ 512 →
      (on_receive s (some c) (some a) (some m) len offset flags).ret =
        BT_GATT_ERR BT_ATT_ERR_INVALID_OFFSET) := by
  constructor
  · constructor
    · intro h
      exact ((accepted_iff s (some c) (some a) (some m) len offset flags).1 h.1).2.1
    · intro h
      rw [on_receive_ok s c a m len offset flags h hpeer]
      exact ⟨by simp only [Outcome.accepted]; omega, rfl⟩
  · intro h
    rw [on_receive_some, if_pos (by simp only [sizeof_custom_value]; omega)]

/-- Witness of C2 at the boundary: `offset + len = 512` is accepted and returns `len`,
`offset + len = 513` gives the invalid-offset error. -/
theorem on_receive_offset_check_witness :
    ((on_receive ⟨some 7, 0, List.replicate 512 0, 0⟩ (some 7) (some 1)
        (some (fun _ => 0)) 12 500 0).accepted ∧
      (on_receive ⟨some 7, 0, List.replicate 512 0, 0⟩ (some 7) (some 1)
        (some (fun _ => 0)) 12 500 0).ret = 12) ∧
    (on_receive ⟨some 7, 0, List.replicate 512 0, 0⟩ (some 7) (some 1)
        (some (fun _ => 0)) 13 500 0).ret = BT_GATT_ERR BT_ATT_ERR_INVALID_OFFSET :=
  ⟨(on_receive_offset_check ⟨some 7, 0, List.replicate 512 0, 0⟩ 7 1 (fun _ => 0)
      12 500 0 rfl).1.2 (by decide),
   (on_receive_offset_check ⟨some 7, 0, List.replicate 512 0, 0⟩ 7 1 (fun _ => 0)
      13 500 0 rfl).2 (by decide)⟩

/-- C3, as stated, fails: a write from a peer that is not the active one, with
`offset + len = 513`, gets the invalid-offset error, not the invalid-handle error. -/
theorem on_receive_foreign_peer_offset_first :
    (on_receive ⟨some 1, 0, List.replicate 512 0, 0⟩ (some 2) (some 0)
        (some (fun _ => 0)) 1 512 0).ret = BT_GATT_ERR BT_ATT_ERR_INVALID_OFFSET ∧
    (on_receive ⟨some 1, 0, List.replicate 512 0, 0⟩ (some 2) (some 0)
        (some (fun _ => 0)) 1 512 0).ret ≠ BT_GATT_ERR BT_ATT_ERR_INVALID_HANDLE := by
  decide

/-- C3, amended: a write whose peer is not the active session's peer (also when there is
no active session) is always rejected and leaves the state unchanged; the error is
invalid-offset when all three pointers are non-null and `offset + len > 512` (the offset
check of line 48 comes before the peer check of line 52), and invalid-handle in every
other case. -/
theorem on_receive_foreign_peer (s : State) (conn attr : Option Nat)
    (buf : Option (Nat → Nat)) (len offset flags : Nat)
    (hpeer : conn ≠ s.current_conn ∨ s.current_conn = none) :
    ¬ (on_receive s conn attr buf len offset flags).accepted ∧
    (on_receive s conn attr buf len offset flags).state = s ∧
    ((conn ≠ none ∧ attr ≠ none ∧ buf ≠ none) ∧ 512 < offset + len →
      (on_receive s conn attr buf len offset flags).ret =
        BT_GATT_ERR BT_ATT_ERR_INVALID_OFFSET) ∧
    (¬ ((conn ≠ none ∧ attr ≠ none ∧ buf ≠ none) ∧ 512 < offset + len) →
      (on_receive s conn attr buf len offset flags).ret =
        BT_GATT_ERR BT_ATT_ERR_INVALID_HANDLE) := by
  have hrej : ¬ (on_receive s conn attr buf len offset flags).accepted := by
    intro h
    rcases (accepted_iff s conn attr buf len offset flags).1 h with ⟨⟨hc, _, _⟩, _, he⟩
    rcases hpeer with hp | hp
    · exact hp he
    · exact hc (he.trans hp)
  refine ⟨hrej, (rejected_unchanged s conn attr buf len offset flags hrej).1, ?_, ?_⟩
  · rintro ⟨⟨hc, ha, hb⟩, hlt⟩
    obtain ⟨c, rfl⟩ := Option.ne_none_iff_exists'.1 hc
    obtain ⟨a, rfl⟩ := Option.ne_none_iff_exists'.1 ha
    obtain ⟨m, rfl⟩ := Option.ne_none_iff_exists'.1 hb
    rw [on_receive_some, if_pos (by simp only [sizeof_custom_value]; omega)]
  · intro hn
    cases conn with
    | none => rw [on_receive_null _ _ _ _ _ _ _ (Or.inl rfl)]
    | some c =>
      cases attr with
      | none => rw [on_receive_null _ _ _ _ _ _ _ (Or.inr (Or.inl rfl))]
      | some a =>
        cases buf with
        | none => rw [on_receive_null _ _ _ _ _ _ _ (Or.inr (Or.inr rfl))]
        | some m =>
          have hle : ¬ offset + len > sizeof_custom_value := by
            simp only [sizeof_custom_value]
            intro hgt
            exact hn ⟨⟨by simp, by simp, by simp⟩, hgt⟩
          have hne : some c ≠ s.current_conn := by
            rcases hpeer with hp | hp
            · exact hp
            · rw [hp]; simp
          rw [on_receive_some, if_neg hle, if_pos hne]

/-- Witness of the amended C3: a foreign peer writing in bounds gets invalid-handle, and
the same peer writing out of bounds gets invalid-offset. -/
theorem on_receive_foreign_peer_witness :
    (on_receive ⟨some 1, 0, List.replicate 512 0, 0⟩ (some 2) (some 0)
        (some (fun _ => 0)) 4 8 0).ret = BT_GATT_ERR BT_ATT_ERR_INVALID_HANDLE ∧
    (on_receive ⟨some 1, 0, List.replicate 512 0, 0⟩ (some 2) (some 0)
        (some (fun _ => 0)) 1 512 0).ret = BT_GATT_ERR BT_ATT_ERR_INVALID_OFFSET :=
  ⟨(on_receive_foreign_peer ⟨some 1, 0, List.replicate 512 0, 0⟩ (some 2) (some 0)
      (some (fun _ => 0)) 4 8 0 (Or.inl (by decide))).2.2.2
      (fun h => absurd h.2 (by decide)),
   (on_receive_foreign_peer ⟨some 1, 0, List.replicate 512 0, 0⟩ (some 2) (some 0)
      (some (fun _ => 0)) 1 512 0 (Or.inl (by decide))).2.2.1
      ⟨⟨by simp, by simp, by simp⟩, by decide⟩⟩

/-- C4: a write is rejected exactly for a null argument, an offset overflow or a peer
mismatch, and every rejected write leaves the whole state (buffer, `custom_value_len`,
`expected_packet_count`, `current_conn`) unchanged and prints no record; so any later
write is processed exactly as if the rejected one had never arrived. -/
theorem on_receive_rejected_frame (s : State) (conn attr : Option Nat)
    (buf : Option (Nat → Nat)) (len offset flags : Nat)
    (hrej : (conn = none ∨ attr = none ∨ buf = none) ∨ 512 < offset + len ∨
      conn ≠ s.current_conn) :
    (on_receive s conn attr buf len offset flags).ret < 0 ∧
    (on_receive s conn attr buf len offset flags).state = s ∧
    (on_receive s conn attr buf len offset flags).emitted = none ∧
    ∀ (conn2 attr2 : Option Nat) (buf2 : Option (Nat → Nat)) (len2 offset2 flags2 : Nat),
      on_receive (on_receive s conn attr buf len offset flags).state
          conn2 attr2 buf2 len2 offset2 flags2 =
        on_receive s conn2 attr2 buf2 len2 offset2 flags2 := by
  have hna : ¬ (on_receive s conn attr buf len offset flags).accepted := by
    intro h
    rcases (accepted_iff s conn attr buf len offset flags).1 h with ⟨⟨hc, ha, hb⟩, hle, he⟩
    rcases hrej with (h1 | h1 | h1) | h1 | h1
    · exact hc h1
    · exact ha h1
    · exact hb h1
    · omega
    · exact h1 he
  have hst := rejected_unchanged s conn attr buf len offset flags hna
  refine ⟨?_, hst.1, hst.2.1, ?_⟩
  · simp only [Outcome.accepted] at hna
    omega
  · intro conn2 attr2 buf2 len2 offset2 flags2
    rw [hst.1]

/-- Witness of C4: a write from a foreign peer, rejected, in a session that holds data. -/
theorem on_receive_rejected_frame_witness :
    (on_receive ⟨some 1, 9, List.replicate 512 3, 40⟩ (some 2) (some 0)
        (some (fun _ => 5)) 6 0 0).state = ⟨some 1, 9, List.replicate 512 3, 40⟩ ∧
    (on_receive ⟨some 1, 9, List.replicate 512 3, 40⟩ (some 2) (some 0)
        (some (fun _ => 5)) 6 0 0).emitted = none :=
  ⟨(on_receive_rejected_frame ⟨some 1, 9, List.replicate 512 3, 40⟩ (some 2) (some 0)
      (some (fun _ => 5)) 6 0 0 (Or.inr (Or.inr (by decide)))).2.1,
   (on_receive_rejected_frame ⟨some 1, 9, List.replicate 512 3, 40⟩ (some 2) (some 0)
      (some (fun _ => 5)) 6 0 0 (Or.inr (Or.inr (by decide)))).2.2.1⟩

/-! ## The write handler: effect on the buffer -/

/-- C5: after an accepted write of the bytes `m 0 .. m (len-1)` at `offset`, the buffer
holds `m i` at `offset + i` for every `i < len`, every cell outside
`[offset, offset + len)` is unchanged, the buffer still has 512 cells, the active peer is
unchanged, and `custom_value_len = offset + len` exactly, whatever it was before. -/
theorem on_receive_accepted_frame (s : State) (conn attr : Option Nat) (m : Nat → Nat)
    (len offset flags : Nat) (hsize : s.custom_value.length = 512)
    (hacc : (on_receive s conn attr (some m) len offset flags).accepted) :
    (∀ i, i < len →
      (on_receive s conn attr (some m) len offset flags).state.custom_value[offset + i]? =
        some (m i)) ∧
    (∀ j, j < offset ∨ offset + len ≤ j →
      (on_receive s conn attr (some m) len offset flags).state.custom_value[j]? =
        s.custom_value[j]?) ∧
    (on_receive s conn attr (some m) len offset flags).state.custom_value.length = 512 ∧
    (on_receive s conn attr (some m) len offset flags).state.current_conn =
      s.current_conn ∧
    (on_receive s conn attr (some m) len offset flags).state.custom_value_len =
      offset + len := by
  obtain ⟨c, a, rfl, rfl, hp, hle⟩ := accepted_args s conn attr m len offset flags hacc
  rw [on_receive_ok s c a m len offset flags hle hp]
  refine ⟨?_, ?_, ?_, rfl, rfl⟩
  · intro i hi
    show (memcpy s.custom_value offset m len)[offset + i]? = some (m i)
    rw [getElem?_memcpy, if_pos ⟨by omega, by omega, by omega⟩]
    congr 2
    omega
  · intro j hj
    show (memcpy s.custom_value offset m len)[j]? = s.custom_value[j]?
    rw [getElem?_memcpy, if_neg (by omega)]
  · show (memcpy s.custom_value offset m len).length = 512
    rw [length_memcpy, hsize]

/-- Witness of C5: a 3-byte write at offset 2 into a session whose `custom_value_len`
was 40 leaves `custom_value_len = 5`, stores the bytes, and keeps the peer. -/
theorem on_receive_accepted_frame_witness :
    (on_receive ⟨some 1, 0, List.replicate 512 0, 40⟩ (some 1) (some 0)
        (some (fun i => 10 + i)) 3 2 0).state.custom_value[2 + 1]? = some (10 + 1) ∧
    (on_receive ⟨some 1, 0, List.replicate 512 0, 40⟩ (some 1) (some 0)
        (some (fun i => 10 + i)) 3 2 0).state.current_conn = some 1 ∧
    (on_receive ⟨some 1, 0, List.replicate 512 0, 40⟩ (some 1) (some 0)
        (some (fun i => 10 + i)) 3 2 0).state.custom_value_len = 2 + 3 :=
  ⟨(on_receive_accepted_frame ⟨some 1, 0, List.replicate 512 0, 40⟩ (some 1) (some 0)
      (fun i => 10 + i) 3 2 0 (List.length_replicate 512 0) (by decide)).1 1 (by decide),
   (on_receive_accepted_frame ⟨some 1, 0, List.replicate 512 0, 40⟩ (some 1) (some 0)
      (fun i => 10 + i) 3 2 0 (List.length_replicate 512 0) (by decide)).2.2.2.1,
   (on_receive_accepted_frame ⟨some 1, 0, List.replicate 512 0, 40⟩ (some 1) (some 0)
      (fun i => 10 + i) 3 2 0 (List.length_replicate 512 0) (by decide)).2.2.2.2⟩

/-- C6: round trip. After an accepted write of `len` bytes at offset 0 (so `len ≤ 512`),
`custom_value_len = len` and the first `custom_value_len` cells of the buffer are exactly
the written bytes. -/
theorem on_receive_round_trip (s : State) (conn attr : Option Nat) (m : Nat → Nat)
    (len flags : Nat) (hsize : s.custom_value.length = 512)
    (hacc : (on_receive s conn attr (some m) len 0 flags).accepted) :
    len ≤ 512 ∧
    (on_receive s conn attr (some m) len 0 flags).state.custom_value_len = len ∧
    (on_receive s conn attr (some m) len 0 flags).state.custom_value.take
        (on_receive s conn attr (some m) len 0 flags).state.custom_value_len =
      bytes m len := by
  obtain ⟨c, a, rfl, rfl, hp, hle⟩ := accepted_args s conn attr m len 0 flags hacc
  rw [on_receive_ok s c a m len 0 flags hle hp]
  refine ⟨by omega, by simp, ?_⟩
  show (memcpy s.custom_value 0 m len).take (0 + len) = bytes m len
  rw [Nat.zero_add]
  exact take_memcpy_zero s.custom_value m len (by omega)

/-- Witness of C6: the five bytes 37, 32, 50, 0, 0 written at offset 0 are read back. -/
theorem on_receive_round_trip_witness :
    (on_receive ⟨some 1, 0, List.replicate 512 9, 0⟩ (some 1) (some 0)
        (some (fun i => [37, 32, 50, 0, 0].getD i 0)) 5 0 0).state.custom_value.take
      (on_receive ⟨some 1, 0, List.replicate 512 9, 0⟩ (some 1) (some 0)
        (some (fun i => [37, 32, 50, 0, 0].getD i 0)) 5 0 0).state.custom_value_len =
      bytes (fun i => [37, 32, 50, 0, 0].getD i 0) 5 :=
  (on_receive_round_trip ⟨some 1, 0, List.replicate 512 9, 0⟩ (some 1) (some 0)
    (fun i => [37, 32, 50, 0, 0].getD i 0) 5 0 (List.length_replicate 512 9)
    (by decide)).2.2

/-- C8: in-order streams raise no mismatch. From a freshly connected session (counter 0),
for a stream of any length `n` whose `i`-th write is accepted, has at least 5 bytes and
carries the sequence byte `i mod 256`, the handler produces `n` outcomes and none of them
takes the mismatch branch of line 62, also past `i = 255` and past `i = 2^32 - 1`. -/
theorem in_order_stream_no_mismatch (s : State) (c : Nat) (ws : List Write)
    (h : ∀ (i : Nat) (w : Write) (o : Outcome), ws[i]? = some w →
      (run_writes (connected s (some c) 0) ws)[i]? = some o →
      o.accepted ∧ 5 ≤ w.len ∧ ∃ m, w.buf = some m ∧ m 4 = i % 256) :
    (connected s (some c) 0).expected_packet_count = 0 ∧
    (run_writes (connected s (some c) 0) ws).length = ws.length ∧
    ∀ (i : Nat) (o : Outcome),
      (run_writes (connected s (some c) 0) ws)[i]? = some o → o.mismatch = false := by
  have h0 : (connected s (some c) 0).expected_packet_count = 0 := by
    simp [connected]
  refine ⟨h0, length_run_writes _ ws, ?_⟩
  apply run_writes_in_order (connected s (some c) 0) 0 ws (by rw [h0])
  intro i w o hw ho
  obtain ⟨h1, h2, m, h3, h4⟩ := h i w o hw ho
  exact ⟨h1, h2, m, h3, by rw [h4, Nat.zero_add]⟩

/-- Witness of C8: the stream with sequence bytes 0, 1, 2 (the instance `n = 3`). -/
theorem in_order_stream_no_mismatch_witness :
    (run_writes (connected State.init (some 1) 0)
        [seq_write 1 0, seq_write 1 1, seq_write 1 2]).length = 3 ∧
    ∀ (i : Nat) (o : Outcome),
      (run_writes (connected State.init (some 1) 0)
        [seq_write 1 0, seq_write 1 1, seq_write 1 2])[i]? = some o →
      o.mismatch = false :=
  (in_order_stream_no_mismatch State.init 1 [seq_write 1 0, seq_write 1 1, seq_write 1 2]
    (by
      intro i w o hw ho
      rcases i with _ | _ | _ | i
      · obtain rfl : seq_write 1 0 = w := Option.some.inj hw
        obtain rfl := Option.some.inj ho
        exact ⟨by decide, by decide, _, rfl, rfl⟩
      · obtain rfl : seq_write 1 1 = w := Option.some.inj hw
        obtain rfl := Option.some.inj ho
        exact ⟨by decide, by decide, _, rfl, rfl⟩
      · obtain rfl : seq_write 1 2 = w := Option.some.inj hw
        obtain rfl := Option.some.inj ho
        exact ⟨by decide, by decide, _, rfl, rfl⟩
      · exact absurd hw (by simp))).2

/-- C9, as stated, fails: with sequence bytes 0, 2, 3 from a fresh session all three
writes are accepted and the mismatch branch is taken at the second and at the third
write, not at the second only. -/
theorem gap_stream_flags_third_write :
    (run_writes (connected State.init (some 1) 0)
        [seq_write 1 0, seq_write 1 2, seq_write 1 3]).map (fun o => decide o.accepted) =
      [true, true, true] ∧
    (run_writes (connected State.init (some 1) 0)
        [seq_write 1 0, seq_write 1 2, seq_write 1 3]).map Outcome.mismatch =
      [false, true, true] ∧
    (run_writes (connected State.init (some 1) 0)
        [seq_write 1 0, seq_write 1 2, seq_write 1 3]).map Outcome.mismatch ≠
      [false, true, false] := by
  decide

/-- C9, amended: from a freshly connected session, three accepted writes of at least 5
bytes with sequence bytes 0, 2, 3 take the mismatch branch at the second write and at
the third write, and not at the first: the counter is incremented by one per write
(it is 2 at the third write) and is not set from the observed byte. -/
theorem gap_stream_mismatches (s : State) (c : Nat) (w0 w1 w2 : Write)
    (m0 m1 m2 : Nat → Nat)
    (hb0 : w0.buf = some m0) (hb1 : w1.buf = some m1) (hb2 : w2.buf = some m2)
    (hl0 : 5 ≤ w0.len) (hl1 : 5 ≤ w1.len) (hl2 : 5 ≤ w2.len)
    (hs0 : m0 4 = 0) (hs1 : m1 4 = 2) (hs2 : m2 4 = 3)
    (ha0 : (w0.run (connected s (some c) 0)).accepted)
    (ha1 : (w1.run (w0.run (connected s (some c) 0)).state).accepted)
    (ha2 : (w2.run (w1.run (w0.run (connected s (some c) 0)).state).state).accepted) :
    (run_writes (connected s (some c) 0) [w0, w1, w2]).map Outcome.mismatch =
      [false, true, true] ∧
    (w1.run (w0.run (connected s (some c) 0)).state).state.expected_packet_count = 2 := by
  have h0 : (connected s (some c) 0).expected_packet_count = 0 := by
    simp [connected]
  obtain ⟨f0, e0⟩ := run_seq_step _ w0 m0 ha0 hl0 hb0
  obtain ⟨f1, e1⟩ := run_seq_step _ w1 m1 ha1 hl1 hb1
  obtain ⟨f2, _⟩ := run_seq_step _ w2 m2 ha2 hl2 hb2
  rw [h0] at e0 f0
  rw [e0] at e1 f1
  rw [e1] at f2
  refine ⟨?_, e1⟩
  simp only [run_writes, List.map_cons, List.map_nil]
  rw [f0, f1, f2]
  simp [read_u8, hs0, hs1, hs2]

/-- Witness of the amended C9: the stream with sequence bytes 0, 2, 3. -/
theorem gap_stream_mismatches_witness :
    (run_writes (connected State.init (some 1) 0)
        [seq_write 1 0, seq_write 1 2, seq_write 1 3]).map Outcome.mismatch =
      [false, true, true] :=
  (gap_stream_mismatches State.init 1 (seq_write 1 0) (seq_write 1 2) (seq_write 1 3)
    _ _ _ rfl rfl rfl (by decide) (by decide) (by decide) rfl rfl rfl
    (by decide) (by decide) (by decide)).1

/-- C10: for an accepted write, `expected_packet_count` becomes
`(expected_packet_count + 1) mod 2^32` when `len ≥ 5`, whether or not the byte at index 4
matches, and is unchanged when `len < 5`; and the byte at index 4 never rejects the
write: with any other value there (memory `m2` equal to `m` except at index 4) the write
is accepted too, with the same return value `len`, the same printed record (verdict
included), the same `custom_value_len`, the same counter, and the same buffer except for
the cell `offset + 4` that holds that byte. -/
theorem on_receive_sequence_never_rejects (s : State) (conn attr : Option Nat)
    (m : Nat → Nat) (len offset flags : Nat)
    (hacc : (on_receive s conn attr (some m) len offset flags).accepted) :
    (5 ≤ len →
      (on_receive s conn attr (some m) len offset flags).state.expected_packet_count =
        (s.expected_packet_count + 1) % 4294967296) ∧
    (len < 5 →
      (on_receive s conn attr (some m) len offset flags).state.expected_packet_count =
        s.expected_packet_count) ∧
    (on_receive s conn attr (some m) len offset flags).ret = (len : Int) ∧
    ∀ m2 : Nat → Nat, (∀ i, i ≠ 4 → m2 i = m i) →
      (on_receive s conn attr (some m2) len offset flags).accepted ∧
      (on_receive s conn attr (some m2) len offset flags).ret =
        (on_receive s conn attr (some m) len offset flags).ret ∧
      (on_receive s conn attr (some m2) len offset flags).emitted =
        (on_receive s conn attr (some m) len offset flags).emitted ∧
      (on_receive s conn attr (some m2) len offset flags).state.custom_value_len =
        (on_receive s conn attr (some m) len offset flags).state.custom_value_len ∧
      (on_receive s conn attr (some m2) len offset flags).state.expected_packet_count =
        (on_receive s conn attr (some m) len offset flags).state.expected_packet_count ∧
      ∀ j, j ≠ offset + 4 →
        (on_receive s conn attr (some m2) len offset flags).state.custom_value[j]? =
          (on_receive s conn attr (some m) len offset flags).state.custom_value[j]? := by
  obtain ⟨c, a, rfl, rfl, hp, hle⟩ := accepted_args s conn attr m len offset flags hacc
  rw [on_receive_ok s c a m len offset flags hle hp]
  refine ⟨fun h5 => if_pos h5, fun h5 => if_neg (by omega), rfl, ?_⟩
  intro m2 hm
  rw [on_receive_ok s c a m2 len offset flags hle hp]
  have e0 : read_u8 m2 0 = read_u8 m 0 := by simp only [read_u8, hm 0 (by decide)]
  have e1 : read_u8 m2 1 = read_u8 m 1 := by simp only [read_u8, hm 1 (by decide)]
  have e2 : read_u8 m2 2 = read_u8 m 2 := by simp only [read_u8, hm 2 (by decide)]
  refine ⟨by simp only [Outcome.accepted]; omega, rfl, ?_, rfl, rfl, ?_⟩
  · simp only [e0, e1, e2]
  · intro j hj
    show (memcpy s.custom_value offset m2 len)[j]? = (memcpy s.custom_value offset m len)[j]?
    rw [getElem?_memcpy, getElem?_memcpy]
    by_cases hc : offset ≤ j ∧ j < offset + len ∧ j < s.custom_value.length
    · rw [if_pos hc, if_pos hc, hm (j - offset) (by omega)]
    · rw [if_neg hc, if_neg hc]

/-- Witness of C10: a write whose sequence byte 9 does not match the counter 0 is
accepted, returns 5 and moves the counter to 1. -/
theorem on_receive_sequence_never_rejects_witness :
    (on_receive (connected State.init (some 1) 0) (some 1) (some 0)
        (some (fun i => [37, 32, 50, 0, 9].getD i 0)) 5 0 0).state.expected_packet_count =
      (0 + 1) % 4294967296 ∧
    (on_receive (connected State.init (some 1) 0) (some 1) (some 0)
        (some (fun i => [37, 32, 50, 0, 9].getD i 0)) 5 0 0).ret = 5 :=
  ⟨(on_receive_sequence_never_rejects (connected State.init (some 1) 0) (some 1) (some 0)
      (fun i => [37, 32, 50, 0, 9].getD i 0) 5 0 0 (by decide)).1 (by decide),
   (on_receive_sequence_never_rejects (connected State.init (some 1) 0) (some 1) (some 0)
      (fun i => [37, 32, 50, 0, 9].getD i 0) 5 0 0 (by decide)).2.2.1⟩

/-! ## The connection callbacks -/

/-- C11: for every session state and every peer argument (matching the active peer or
not, null or not) and every reason, `disconnected` leaves `current_conn = NULL`,
`custom_value_len = 0` and `expected_packet_count = 0`. -/
theorem disconnected_clears (s : State) (conn : Option Nat) (reason : Nat) :
    (disconnected s conn reason).current_conn = none ∧
    (disconnected s conn reason).custom_value_len = 0 ∧
    (disconnected s conn reason).expected_packet_count = 0 :=
  ⟨disconnected_conn s conn reason, rfl, rfl⟩

/-- C12, as stated, fails: after a first session has written five bytes, a second
successful `connected` (no `disconnected` in between) leaves `custom_value_len = 5`. -/
theorem connected_keeps_valid_length :
    (run_events State.init
        [Event.connect (some 1) 0, Event.write (seq_write 1 0),
         Event.connect (some 2) 0]).current_conn = some 2 ∧
    (run_events State.init
        [Event.connect (some 1) 0, Event.write (seq_write 1 0),
         Event.connect (some 2) 0]).custom_value_len = 5 ∧
    (run_events State.init
        [Event.connect (some 1) 0, Event.write (seq_write 1 0),
         Event.connect (some 2) 0]).custom_value_len ≠ 0 := by
  decide

/-- C12, amended: for every session state and every peer, a successful `connected`
(`err = 0`) leaves `current_conn` = the given peer and `expected_packet_count = 0`, and
leaves `custom_value_len` and the buffer as they were; so `custom_value_len = 0`
afterwards exactly when it was 0 before (as it is initially and after `disconnected`). -/
theorem connected_resets_sequence (s : State) (conn : Option Nat) :
    (connected s conn 0).current_conn = conn ∧
    (connected s conn 0).expected_packet_count = 0 ∧
    (connected s conn 0).custom_value_len = s.custom_value_len ∧
    (connected s conn 0).custom_value = s.custom_value ∧
    (∀ (cd : Option Nat) (reason : Nat),
      (connected (disconnected s cd reason) conn 0).custom_value_len = 0) ∧
    (connected State.init conn 0).custom_value_len = 0 := by
  exact ⟨rfl, rfl, rfl, rfl, fun _ _ => rfl, rfl⟩

/-- C20: a `connected` event that reports a failure (`err ≠ 0`) leaves every file-scope
variable as it was, so every later write is handled as before; in particular a write the
session accepted before is still accepted. -/
theorem connected_failure_frame (s : State) (conn : Option Nat) (err : Nat) (herr : err ≠ 0) :
    connected s conn err = s ∧
    ∀ (conn2 attr2 : Option Nat) (buf2 : Option (Nat → Nat)) (len2 offset2 flags2 : Nat),
      on_receive (connected s conn err) conn2 attr2 buf2 len2 offset2 flags2 =
        on_receive s conn2 attr2 buf2 len2 offset2 flags2 := by
  have h : connected s conn err = s := by
    unfold connected
    rw [if_pos herr]
  exact ⟨h, fun _ _ _ _ _ _ => by rw [h]⟩

/-- Witness of C20: a failed connection attempt of peer 2 (error 62) while peer 1 holds
the session; peer 1 stays, and its write is handled as before. -/
theorem connected_failure_frame_witness :
    connected (connected State.init (some 1) 0) (some 2) 62 =
      connected State.init (some 1) 0 ∧
    on_receive (connected (connected State.init (some 1) 0) (some 2) 62)
        (some 1) (some 0) (some (fun _ => 0)) 5 0 0 =
      on_receive (connected State.init (some 1) 0)
        (some 1) (some 0) (some (fun _ => 0)) 5 0 0 :=
  ⟨(connected_failure_frame (connected State.init (some 1) 0) (some 2) 62 (by decide)).1,
   (connected_failure_frame (connected State.init (some 1) 0) (some 2) 62
      (by decide)).2 (some 1) (some 0) (some (fun _ => 0)) 5 0 0⟩

/-! ## Writes without a session, and empty writes -/

/-- C13, as stated, fails: after `disconnected`, a write that references the old peer
with `offset + len = 513` gets the invalid-offset error, not the invalid-handle error. -/
theorem write_after_disconnect_offset_first :
    (on_receive (disconnected (connected State.init (some 1) 0) (some 1) 19)
        (some 1) (some 0) (some (fun _ => 0)) 1 512 0).ret =
      BT_GATT_ERR BT_ATT_ERR_INVALID_OFFSET ∧
    (on_receive (disconnected (connected State.init (some 1) 0) (some 1) 19)
        (some 1) (some 0) (some (fun _ => 0)) 1 512 0).ret ≠
      BT_GATT_ERR BT_ATT_ERR_INVALID_HANDLE := by
  decide

/-- C13, amended: after a `disconnected` event, every write of any stream of writes
(referencing any peer, any offset, any data) is rejected and changes nothing, however
many writes follow; the error is invalid-offset when `conn`, `attr`, `buf` are non-null
and `offset + len > 512`, and invalid-handle in every other case. After a successful
`connected` for peer `p`, an in-bounds write of `p` is accepted. -/
theorem writes_after_disconnect (s : State) (cd : Option Nat) (reason : Nat)
    (ws : List Write) :
    (run_writes (disconnected s cd reason) ws).length = ws.length ∧
    (∀ (i : Nat) (w : Write) (o : Outcome), ws[i]? = some w →
      (run_writes (disconnected s cd reason) ws)[i]? = some o →
      ¬ o.accepted ∧ o.state = disconnected s cd reason ∧ o.emitted = none ∧
      o.ret =
        if (w.conn.isSome && w.attr.isSome && w.buf.isSome) = true ∧
            512 < w.offset + w.len then BT_GATT_ERR BT_ATT_ERR_INVALID_OFFSET
        else BT_GATT_ERR BT_ATT_ERR_INVALID_HANDLE) ∧
    final_state (disconnected s cd reason) ws = disconnected s cd reason ∧
    ∀ (p a : Nat) (m : Nat → Nat) (len offset flags : Nat), offset + len ≤ 512 →
      (on_receive (connected (final_state (disconnected s cd reason) ws) (some p) 0)
        (some p) (some a) (some m) len offset flags).accepted := by
  have hnone := disconnected_conn s cd reason
  refine ⟨length_run_writes _ ws, ?_, final_state_no_session _ ws hnone, ?_⟩
  · intro i w o hw ho
    have ho2 := run_writes_no_session _ ws hnone i w o hw ho
    rw [ho2]
    exact ⟨error_not_accepted _ _, rfl, rfl, rfl⟩
  · intro p a m len offset flags hle
    rw [on_receive_ok _ p a m len offset flags hle (by simp [connected, bt_conn_ref])]
    simp only [Outcome.accepted]
    omega

/-- C14, as stated, fails: an empty write (`len = 0`) of the active peer with non-null
pointers at offset 7 is accepted: the handler returns 0, not the invalid-handle error. -/
theorem empty_write_accepted :
    (on_receive (connected State.init (some 1) 0) (some 1) (some 0)
        (some (fun _ => 0)) 0 7 0).ret = 0 ∧
    (on_receive (connected State.init (some 1) 0) (some 1) (some 0)
        (some (fun _ => 0)) 0 7 0).ret ≠ BT_GATT_ERR BT_ATT_ERR_INVALID_HANDLE := by
  decide

/-- C14, amended: for every session state (with or without an active peer), every write
whose data pointer `buf` is null is rejected with invalid-handle and changes nothing,
whatever its peer, length and offset are; an empty write (`len = 0`) with non-null
pointers is not rejected for being empty: whenever it comes from the active peer at an
offset of at most 512 it is accepted and returns 0, with the buffer, the peer and
`expected_packet_count` unchanged and `custom_value_len = offset`. -/
theorem empty_write (s : State) :
    (∀ (conn attr : Option Nat) (len off fl : Nat),
      (on_receive s conn attr none len off fl).ret =
          BT_GATT_ERR BT_ATT_ERR_INVALID_HANDLE ∧
        (on_receive s conn attr none len off fl).state = s ∧
        (on_receive s conn attr none len off fl).emitted = none) ∧
    (∀ (c a : Nat) (m : Nat → Nat) (offset flags : Nat),
      s.current_conn = some c → offset ≤ 512 →
        (on_receive s (some c) (some a) (some m) 0 offset flags).accepted ∧
        (on_receive s (some c) (some a) (some m) 0 offset flags).ret = 0 ∧
        (on_receive s (some c) (some a) (some m) 0 offset flags).state =
          { s with custom_value_len := offset }) := by
  refine ⟨?_, ?_⟩
  · intro conn attr len off fl
    rw [on_receive_null s conn attr none len off fl (Or.inr (Or.inr rfl))]
    exact ⟨rfl, rfl, rfl⟩
  · intro c a m offset flags hpeer hoff
    rw [on_receive_ok s c a m 0 offset flags (by omega) hpeer]
    refine ⟨by simp [Outcome.accepted], rfl, ?_⟩
    simp [memcpy]

/-- Witness of the amended C14: a null `buf` is rejected in the initial state, where no
peer is active, and the empty write at offset 7 into a fresh session is accepted. -/
theorem empty_write_witness :
    (on_receive State.init (some 1) (some 0) none 5 0 0).ret =
      BT_GATT_ERR BT_ATT_ERR_INVALID_HANDLE ∧
    (on_receive (connected State.init (some 1) 0) (some 1) (some 0)
        (some (fun _ => 0)) 0 7 0).ret = 0 ∧
    (on_receive (connected State.init (some 1) 0) (some 1) (some 0)
        (some (fun _ => 0)) 0 7 0).state =
      { connected State.init (some 1) 0 with custom_value_len := 7 } :=
  ⟨((empty_write State.init).1 (some 1) (some 0) 5 0 0).1,
   ((empty_write (connected State.init (some 1) 0)).2 1 0 (fun _ => 0) 7 0 rfl
      (by decide)).2.1,
   ((empty_write (connected State.init (some 1) 0)).2 1 0 (fun _ => 0) 7 0 rfl
      (by decide)).2.2⟩

/-! ## The printed record -/

/-- C15, the code at the failing input: an accepted 3-byte write with raw length and
width 60 prints `length` and `width` as 4294967287 (the `int` value `51 - 60 = -9` read
by `%u`), while the classifier's `actual_length` for 60 is the 8-bit value 247. -/
theorem emitted_length_not_wrapped :
    (on_receive (connected State.init (some 1) 0) (some 1) (some 0)
        (some (fun i => [60, 60, 50].getD i 0)) 3 0 0).emitted =
      some ⟨4294967287, 4294967287, 50, 255, 1⟩ ∧
    to_u8 (51 - ((60 : Nat) : Int)) = 247 := by
  decide

/-- C16: per-fragment classification. For an accepted write of at least 3 bytes, the
printed verdict is `check_defective data[0] data[1]` and the printed mass is `data[2]`;
and a second accepted write with the same data prints the same verdict and mass,
whatever its session state (buffer, `custom_value_len`, counter, peer) and offset are. -/
theorem per_fragment_classification (s1 s2 : State) (conn1 attr1 conn2 attr2 : Option Nat)
    (m1 m2 : Nat → Nat) (len off1 off2 fl1 fl2 : Nat)
    (hlen : 3 ≤ len) (hbyte : ∀ i, i < len → m1 i < 256)
    (hsame : ∀ i, i < len → m2 i = m1 i)
    (h1 : (on_receive s1 conn1 attr1 (some m1) len off1 fl1).accepted)
    (h2 : (on_receive s2 conn2 attr2 (some m2) len off2 fl2).accepted) :
    (on_receive s1 conn1 attr1 (some m1) len off1 fl1).emitted.map Record.defective =
      some (check_defective (m1 0) (m1 1)) ∧
    (on_receive s1 conn1 attr1 (some m1) len off1 fl1).emitted.map Record.mass =
      some (m1 2) ∧
    (on_receive s2 conn2 attr2 (some m2) len off2 fl2).emitted.map Record.defective =
      (on_receive s1 conn1 attr1 (some m1) len off1 fl1).emitted.map Record.defective ∧
    (on_receive s2 conn2 attr2 (some m2) len off2 fl2).emitted.map Record.mass =
      (on_receive s1 conn1 attr1 (some m1) len off1 fl1).emitted.map Record.mass := by
  obtain ⟨c1, a1, rfl, rfl, hp1, hle1⟩ := accepted_args s1 conn1 attr1 m1 len off1 fl1 h1
  obtain ⟨c2, a2, rfl, rfl, hp2, hle2⟩ := accepted_args s2 conn2 attr2 m2 len off2 fl2 h2
  rw [on_receive_ok s1 c1 a1 m1 len off1 fl1 hle1 hp1,
    on_receive_ok s2 c2 a2 m2 len off2 fl2 hle2 hp2]
  have e0 : read_u8 m2 0 = read_u8 m1 0 := by simp only [read_u8, hsame 0 (by omega)]
  have e1 : read_u8 m2 1 = read_u8 m1 1 := by simp only [read_u8, hsame 1 (by omega)]
  have e2 : read_u8 m2 2 = read_u8 m1 2 := by simp only [read_u8, hsame 2 (by omega)]
  have b2 : read_u8 m1 2 = m1 2 := Nat.mod_eq_of_lt (hbyte 2 (by omega))
  refine ⟨?_, ?_, ?_, ?_⟩
  · show some (check_defective (read_u8 m1 0) (read_u8 m1 1)) = _
    simp only [read_u8, check_defective_mod]
  · show some (read_u8 m1 2) = _
    rw [b2]
  · show some (check_defective (read_u8 m2 0) (read_u8 m2 1)) =
      some (check_defective (read_u8 m1 0) (read_u8 m1 1))
    rw [e0, e1]
  · show some (read_u8 m2 2) = some (read_u8 m1 2)
    rw [e2]

/-- Witness of C16: the record 37, 32, 50 written at offset 0 into a fresh session and
at offset 100 into a session that already holds data and has counted 9 packets. -/
theorem per_fragment_classification_witness :
    (on_receive ⟨some 2, 9, List.replicate 512 7, 40⟩ (some 2) (some 0)
        (some (fun i => [37, 32, 50].getD i 0)) 3 100 0).emitted.map Record.defective =
      (on_receive (connected State.init (some 1) 0) (some 1) (some 0)
        (some (fun i => [37, 32, 50].getD i 0)) 3 0 0).emitted.map Record.defective :=
  (per_fragment_classification (connected State.init (some 1) 0)
    ⟨some 2, 9, List.replicate 512 7, 40⟩ (some 1) (some 0) (some 2) (some 0)
    (fun i => [37, 32, 50].getD i 0) (fun i => [37, 32, 50].getD i 0) 3 0 100 0 0
    (by decide) (by decide) (fun _ _ => rfl) (by decide) (by decide)).2.2.1

/-- C17: every accepted write prints a record whose `color` is the fixed value 255 (the
literal `0xFFFF` stored in a `uint8_t`) and whose `defective` is 0 or 1. -/
theorem emitted_color_and_verdict (s : State) (w : Write) (hacc : (w.run s).accepted) :
    ∃ r : Record, (w.run s).emitted = some r ∧ r.color = to_u8 0xFFFF ∧ r.color = 255 ∧
      (r.defective = 0 ∨ r.defective = 1) := by
  obtain ⟨c, a, m, _, _, _, _, _, hrun⟩ := run_accepted s w hacc
  rw [hrun]
  exact ⟨_, rfl, rfl, (by decide : to_u8 0xFFFF = 255), check_defective_range _ _⟩

/-- Witness of C17: the sample record written into a fresh session. -/
theorem emitted_color_and_verdict_witness :
    ∃ r : Record, ((seq_write 1 0).run (connected State.init (some 1) 0)).emitted = some r ∧
      r.color = to_u8 0xFFFF ∧ r.color = 255 ∧ (r.defective = 0 ∨ r.defective = 1) :=
  emitted_color_and_verdict (connected State.init (some 1) 0) (seq_write 1 0) (by decide)

/-! ## Reachable states and the raw-byte form of the classifier -/

/-- C18: in every state reached from the initial state by any sequence of `connected`,
`disconnected` and `on_receive` callbacks, `custom_value_len ≤ 512` and the buffer has
its 512 cells; and for every write accepted in such a state the assignment
`custom_value_len = offset + len` loses nothing in 16 bits and every copied byte
`offset + i`, `i < len`, lies inside the buffer. -/
theorem reachable_valid_length (es : List Event) :
    (run_events State.init es).custom_value_len ≤ 512 ∧
    (run_events State.init es).custom_value.length = 512 ∧
    ∀ w : Write, (w.run (run_events State.init es)).accepted →
      to_u16 ((w.offset : Int) + (w.len : Int)) = w.offset + w.len ∧
      (w.run (run_events State.init es)).state.custom_value_len = w.offset + w.len ∧
      ∀ i, i < w.len → w.offset + i < (run_events State.init es).custom_value.length := by
  have hinit : State.init.in_bounds := ⟨List.length_replicate 512 0, Nat.zero_le _⟩
  obtain ⟨h1, h2⟩ := in_bounds_run_events State.init es hinit
  refine ⟨h2, h1, ?_⟩
  intro w hacc
  obtain ⟨c, a, m, _, _, _, _, hle, hrun⟩ := run_accepted _ w hacc
  refine ⟨by unfold to_u16; omega, by rw [hrun], ?_⟩
  intro i hi
  omega

/-- C19: for raw bytes in [0,255], `check_defective length_raw width_raw = 0` if and only
if `35 ≤ length_raw ≤ 39` and `28 ≤ width_raw ≤ 32`; hence every input with
`length_raw > 51` or `width_raw > 51` (where `51 - raw` wraps) is classified 1. -/
theorem check_defective_raw (length_raw width_raw : Nat)
    (hl : length_raw ≤ 255) (hw : width_raw ≤ 255) :
    (check_defective length_raw width_raw = 0 ↔
      (35 ≤ length_raw ∧ length_raw ≤ 39) ∧ (28 ≤ width_raw ∧ width_raw ≤ 32)) ∧
    (51 < length_raw ∨ 51 < width_raw → check_defective length_raw width_raw = 1) := by
  constructor
  · unfold check_defective to_u8
    simp only [ge_iff_le, Bool.and_eq_true, decide_eq_true_eq]
    split <;> omega
  · unfold check_defective to_u8
    simp only [ge_iff_le, Bool.and_eq_true, decide_eq_true_eq]
    split <;> omega

/-- Witness of C19: the raw bytes 60 and 30; 60 wraps to 247 and is classified 1. -/
theorem check_defective_raw_witness :
    (check_defective 60 30 = 0 ↔ (35 ≤ 60 ∧ 60 ≤ 39) ∧ (28 ≤ 30 ∧ 30 ≤ 32)) ∧
    check_defective 60 30 = 1 :=
  ⟨(check_defective_raw 60 30 (by decide) (by decide)).1,
   (check_defective_raw 60 30 (by decide) (by decide)).2 (Or.inl (by decide))⟩

end Ingest
